import Mathlib

/-!
Verification of the agentic-guardrails repository.

Python strings are modelled as `List Char`; fallible operations return
`Option` or `Except` (an exception that propagates is `none` / `.error`).
Each definition embeds the source function named in its doc comment.
The guardrail pipeline and the body of the conversation-controller loop
are absent from the source tree (graph.py is truncated mid-function and
no pipeline module exists), so those are modelled from the spec, as
marked in their doc comments.
-/

/-- Whitespace test used by Python `str.strip` (the ASCII whitespace
characters: space, tab, newline, carriage return, vertical tab, form feed). -/
def isPyWS (c : Char) : Bool :=
  c = ' ' || c = '\t' || c = '\n' || c = '\r' || c = Char.ofNat 11 || c = Char.ofNat 12

/-- Python `s.strip()`: remove leading and trailing whitespace. -/
def pyStrip (s : List Char) : List Char :=
  ((s.dropWhile isPyWS).reverse.dropWhile isPyWS).reverse

/-- Python `s.lower()` (ASCII case folding, as used on the report text). -/
def lowerStr (s : List Char) : List Char := s.map Char.toLower

/-- Boolean prefix test: `hasPrefixL p s` is true when `p` is an initial
segment of `s` (Python `s.startswith(p)`). -/
def hasPrefixL : List Char → List Char → Bool
  | [], _ => true
  | _ :: _, [] => false
  | p :: ps, c :: cs => p = c && hasPrefixL ps cs

/-- Python `s.endswith(p)`. -/
def hasSuffixL (p s : List Char) : Bool := hasPrefixL p.reverse s.reverse

/-- Helper for `pyFind`: first index `≥ i` at which `needle` starts in the
remaining haystack. -/
def findFrom (needle : List Char) : List Char → Nat → Option Nat
  | [], i => if needle = [] then some i else none
  | c :: rest, i =>
      if hasPrefixL needle (c :: rest) then some i else findFrom needle rest (i + 1)

/-- Python `hay.find(needle)`: index of the first occurrence, `none` when
absent (Python returns `-1`). -/
def pyFind (hay needle : List Char) : Option Nat := findFrom needle hay 0

/-- Python `needle in hay` as a Bool (substring occurrence). -/
def occursIn (needle hay : List Char) : Bool := (pyFind hay needle).isSome

/-- An apostrophe character, used inside source string literals. -/
def apos : Char := Char.ofNat 39

/-- The exact error string returned by `query_10K_report` when the corpus is
empty (tools.py line 31). -/
def report_unavailable_msg : List Char :=
  "ERROR: 10K report content not available. Please run the ".data
    ++ [apos] ++ "data_loader".data ++ [apos] ++ " first.".data

/-- The exact no-match string of tools.py line 43. -/
def no_match_msg : List Char :=
  "No direct match found for the query in the 10-K report.".data

/-- The prefix of the successful result of tools.py line 40. -/
def found_msg : List Char :=
  "Found relevant section in 10-K report: ".data

/-- tools.py lines 12-43, `query_10K_report(query)`.  The module-global
corpus `TEN_K_REPORT_CONTENT` is passed explicitly.  Mirrors the source:
empty corpus guard, case-insensitive `find`, snippet `corpus[start:end]`
with `start = max(0, mi-500)` (Nat subtraction) and
`end = min(len(corpus), mi+500)`. -/
def query_10K_report (corpus query : List Char) : List Char :=
  if corpus = [] then report_unavailable_msg
  else
    match pyFind (lowerStr corpus) (lowerStr query) with
    | some matchIndex =>
        let start := matchIndex - 500
        let stop := min corpus.length (matchIndex + 500)
        found_msg ++ (corpus.drop start).take (stop - start)
    | none => no_match_msg

/-- The JSON object serialized by `execute_trade` (tools.py lines 110-116);
`json.dumps` is external serialization, so the object itself is the result. -/
structure TradeConfirmation where
  status : List Char
  confirmation_id : List Char
  ticker_id : List Char
  shares : Int
  order_type : List Char
deriving DecidableEq

/-- tools.py lines 84-116, `execute_trade(ticker, shares, order_types)`.
`now` stands for `int(time.time())` used only in the confirmation id; the
function performs no validation of any argument. -/
def execute_trade (ticker : List Char) (shares : Int) (order_types : List Char)
    (now : Nat) : TradeConfirmation :=
  { status := "SUCCESS".data
  , confirmation_id := "trade_".data ++ (toString now).data
  , ticker_id := ticker
  , shares := shares
  , order_type := order_types }

/-- Backtick character (kept out of literals). -/
def bq : Char := Char.ofNat 96

/-- Left curly brace character. -/
def lbrace : Char := Char.ofNat 123

/-- Right curly brace character. -/
def rbrace : Char := Char.ofNat 125

/-- Double-quote character. -/
def dq : Char := Char.ofNat 34

/-- The fence marker, three backticks. -/
def fence3 : List Char := [bq, bq, bq]

/-- The tagged fence marker the client looks for: three backticks then
the tag `json`. -/
def fence3json : List Char := [bq, bq, bq, 'j', 's', 'o', 'n']

/-- JSON values, the result type of `json.loads` (numbers restricted to
integers; the claims involve no floating-point documents). -/
inductive JVal where
  | jnull : JVal
  | jbool : Bool → JVal
  | jnum : Int → JVal
  | jstr : List Char → JVal
  | jarr : List JVal → JVal
  | jobj : List (List Char × JVal) → JVal

/-- Skip JSON whitespace. -/
def skipWS (s : List Char) : List Char := s.dropWhile isPyWS

/-- Consume a leading run of decimal digits. -/
def takeDigits : List Char → List Char × List Char
  | [] => ([], [])
  | c :: r =>
      if c.isDigit then
        let p := takeDigits r
        (c :: p.1, p.2)
      else ([], c :: r)

/-- Value of a digit string. -/
def digitsVal (acc : Nat) : List Char → Nat
  | [] => acc
  | c :: r => digitsVal (acc * 10 + (c.toNat - 48)) r

/-- Consume a JSON string body up to the closing quote (escapes omitted;
no claim involves escaped strings). -/
def takeStrBody : List Char → Option (List Char × List Char)
  | [] => none
  | c :: r =>
      if c = dq then some ([], r)
      else (takeStrBody r).map (fun p => (c :: p.1, p.2))

mutual

/-- A small executable model of `json.loads`: parse one JSON value,
returning it with the unconsumed remainder. -/
def parseVal : Nat → List Char → Option (JVal × List Char)
  | 0, _ => none
  | fuel + 1, s =>
      match skipWS s with
      | [] => none
      | c :: r =>
          if c = 'n' then
            match r with
            | 'u' :: 'l' :: 'l' :: r2 => some (.jnull, r2)
            | _ => none
          else if c = 't' then
            match r with
            | 'r' :: 'u' :: 'e' :: r2 => some (.jbool true, r2)
            | _ => none
          else if c = 'f' then
            match r with
            | 'a' :: 'l' :: 's' :: 'e' :: r2 => some (.jbool false, r2)
            | _ => none
          else if c = dq then
            (takeStrBody r).map (fun p => (.jstr p.1, p.2))
          else if c = '-' then
            match takeDigits r with
            | ([], _) => none
            | (ds, r2) => some (.jnum (-(digitsVal 0 ds : Int)), r2)
          else if c.isDigit then
            match takeDigits (c :: r) with
            | ([], _) => none
            | (ds, r2) => some (.jnum (digitsVal 0 ds : Int), r2)
          else if c = '[' then
            match skipWS r with
            | ']' :: r2 => some (.jarr [], r2)
            | r2 => (parseElems fuel r2).map (fun p => (.jarr p.1, p.2))
          else if c = lbrace then
            match skipWS r with
            | c2 :: r2 =>
                if c2 = rbrace then some (.jobj [], r2)
                else (parseFields fuel (c2 :: r2)).map (fun p => (.jobj p.1, p.2))
            | [] => none
          else none

/-- Parse the elements of a non-empty JSON array, after the bracket. -/
def parseElems : Nat → List Char → Option (List JVal × List Char)
  | 0, _ => none
  | fuel + 1, s =>
      match parseVal fuel s with
      | none => none
      | some (v, r) =>
          match skipWS r with
          | ',' :: r2 => (parseElems fuel r2).map (fun p => (v :: p.1, p.2))
          | ']' :: r2 => some ([v], r2)
          | _ => none

/-- Parse the fields of a non-empty JSON object, after the brace. -/
def parseFields : Nat → List Char → Option (List (List Char × JVal) × List Char)
  | 0, _ => none
  | fuel + 1, s =>
      match skipWS s with
      | c :: r =>
          if c = dq then
            match takeStrBody r with
            | none => none
            | some (key, r2) =>
                match skipWS r2 with
                | ':' :: r3 =>
                    match parseVal fuel r3 with
                    | none => none
                    | some (v, r4) =>
                        match skipWS r4 with
                        | ',' :: r5 => (parseFields fuel r5).map (fun p => ((key, v) :: p.1, p.2))
                        | c5 :: r5 =>
                            if c5 = rbrace then some ([(key, v)], r5) else none
                        | [] => none
                | _ => none
          else none
      | [] => none

end

/-- `json.loads`: the whole input must be one JSON value surrounded only by
whitespace; anything else raises (`none`). -/
def jsonLoads (s : List Char) : Option JVal :=
  match parseVal (s.length + 2) s with
  | some (v, rest) => if skipWS rest = [] then some v else none
  | none => none

/-- gemini_client.py lines 137-146: the fence-stripping performed by
`GeminiClient.generate_json` on the model response, step by step:
strip, then fence removal.  This def is lines 138-139: drop a leading
three-backticks-plus-`json` tag (7 characters). -/
def stripTag (s : List Char) : List Char :=
  if hasPrefixL fence3json s then s.drop 7 else s

/-- gemini_client.py lines 140-141: drop a leading bare three-backtick
fence. -/
def stripLead (s : List Char) : List Char :=
  if hasPrefixL fence3 s then s.drop 3 else s

/-- gemini_client.py lines 142-143: drop a trailing three-backtick
fence. -/
def stripTrail (s : List Char) : List Char :=
  if hasSuffixL fence3 s then s.take (s.length - 3) else s

/-- gemini_client.py lines 137-143 combined, in source order. -/
def stripJsonFences (s : List Char) : List Char :=
  stripTrail (stripLead (stripTag (pyStrip s)))

/-- gemini_client.py lines 109-148, `GeminiClient.generate_json`
post-processing: the raw response text is fence-stripped, stripped again,
and handed to `json.loads`; there is no exception handler, so a parse
failure propagates (`none`). -/
def generate_json_post (responseText : List Char) : Option JVal :=
  jsonLoads (pyStrip (stripJsonFences responseText))

/-- A response wrapped in a `json`-tagged markdown code fence. -/
def wrapJsonFence (d : List Char) : List Char :=
  fence3json ++ '\n' :: d ++ '\n' :: fence3

/-- A response wrapped in a bare (untagged) markdown code fence. -/
def wrapBareFence (d : List Char) : List Char :=
  fence3 ++ '\n' :: d ++ '\n' :: fence3

/-- A response wrapped in a code fence with an arbitrary language tag. -/
def wrapTaggedFence (tag d : List Char) : List Char :=
  fence3 ++ tag ++ '\n' :: d ++ '\n' :: fence3

/-- config.py lines 12-53: the configuration values loaded from the
environment (each `os.getenv(name, default)`). -/
structure Config where
  GEMINI_API_KEY : List Char
  MODEL_POWERFUL : List Char
  LLM_TIMEOUT : Nat
  MAX_RETRIES : Nat

/-- config.py lines 16-53: building the `Config` class attributes from the
environment; `os.getenv("GEMINI_API_KEY", "")` defaults to the empty
string, `MODEL_POWERFUL` defaults to `gemini-2.5-flash`, `LLM_TIMEOUT = 30`
and `MAX_RETRIES = 3` are constants. -/
def configFromEnv (geminiKeyVar modelPowerfulVar : Option (List Char)) : Config :=
  { GEMINI_API_KEY := geminiKeyVar.getD []
  , MODEL_POWERFUL := modelPowerfulVar.getD "gemini-2.5-flash".data
  , LLM_TIMEOUT := 30
  , MAX_RETRIES := 3 }

/-- config.py lines 55-71, `Config.validate`: returns `false` (after a
printed warning) when the API key is empty, `true` otherwise; it raises
nothing. -/
def configValidate (cfg : Config) : Bool :=
  if cfg.GEMINI_API_KEY = [] then false else true

/-- Errors raised during client construction. -/
inductive InitError where
  | valueError : InitError
deriving DecidableEq

/-- The constructed client state (the vendor SDK handle is opaque). -/
structure GeminiClientState where
  api_key : List Char
deriving DecidableEq

/-- gemini_client.py lines 18-33, `GeminiClient.__init__`:
`self.api_key = api_key or Config.GEMINI_API_KEY` (Python `or` falls
through on `None` and on the empty string), then
`raise ValueError(...)` when the resulting key is empty. -/
def geminiClientInit (cfg : Config) (api_key : Option (List Char)) :
    Except InitError GeminiClientState :=
  let key :=
    match api_key with
    | some k => if k = [] then cfg.GEMINI_API_KEY else k
    | none => cfg.GEMINI_API_KEY
  if key = [] then .error .valueError else .ok { api_key := key }

/-- gemini_client.py lines 150-151: the module-level
`gemini_client = GeminiClient()` constructed at import time (startup),
with no explicit key argument. -/
def startupGeminiClient (cfg : Config) : Except InitError GeminiClientState :=
  geminiClientInit cfg none

/-- Errors a backend call can raise (Model Gateway taxonomy). -/
inductive BackendError where
  | unavailable : BackendError
  | deadlineExceeded : BackendError
deriving DecidableEq

/-- One request to `client.models.generate_content`. -/
structure GenRequest where
  modelName : List Char
  contents : List Char
deriving DecidableEq

/-- gemini_client.py lines 35-79, `GeminiClient.generate`: picks
`model or Config.MODEL_POWERFUL`, issues a single
`generate_content` call (attempt index 0 of the attempt-indexed backend
oracle), and on any exception prints and re-raises.  There is no retry
loop anywhere in the client; `Config.MAX_RETRIES` is never read. -/
def geminiGenerate (cfg : Config) (modelArg : Option (List Char))
    (backend : Nat → GenRequest → Except BackendError (List Char))
    (prompt : List Char) : Except BackendError (List Char) :=
  let modelName := modelArg.getD cfg.MODEL_POWERFUL
  match backend 0 { modelName := modelName, contents := prompt } with
  | .ok text => .ok text
  | .error e => .error e

/-- Message roles of the conversation history (graph.py line 12:
Human, AI, Tool messages). -/
inductive MsgRole where
  | user : MsgRole
  | assistant : MsgRole
  | toolResult : MsgRole
deriving DecidableEq

/-- One conversation message. -/
structure Message where
  role : MsgRole
  content : List Char
deriving DecidableEq

/-- One tool schema entry of the static `tools_config` (graph.py
lines 29-71): name and required parameter names. -/
structure FunctionDecl where
  declName : List Char
  required : List (List Char)
deriving DecidableEq

/-- graph.py lines 29-71: the static tool schema set. -/
def tools_config : List FunctionDecl :=
  [ { declName := "query_10K_report".data, required := ["query".data] }
  , { declName := "get_real_time_market_data".data, required := ["ticker".data] }
  , { declName := "execute_trade".data
    , required := ["ticker".data, "shares".data, "order_type".data] } ]

/-- The planning request submitted to `generate_content` (graph.py
lines 76-81): model, contents, and tool schemas. -/
structure PlanningRequest where
  modelName : List Char
  contents : List Char
  tools : List FunctionDecl
deriving DecidableEq

/-- graph.py lines 26-83, `call_gemini_with_tools(messages)`: the request
it submits.  The source takes `last_msg = messages[-1]` and sends
`contents = last_msg.content` (an `IndexError` on an empty list is
`none`), together with the static `tools_config`. -/
def call_gemini_with_tools (cfg : Config) (messages : List Message) :
    Option PlanningRequest :=
  messages.getLast?.map fun lastMsg =>
    { modelName := cfg.MODEL_POWERFUL
    , contents := lastMsg.content
    , tools := tools_config }

/-- Risk tier of a tool (spec §3 ToolDescriptor). -/
inductive RiskTier where
  | safe : RiskTier
  | sensitive : RiskTier
deriving DecidableEq

/-- Modelled from the spec: the risk-tier assignment is not present in
src (no Tool Registry module exists); per §4.3/§6, `execute_trade` is the
one `SENSITIVE` tool and the research and market-data tools are `SAFE`. -/
def toolTier (toolName : List Char) : RiskTier :=
  if toolName = "execute_trade".data then .sensitive else .safe

/-- A proposed tool call (spec §3 ToolCallRequest). -/
structure ToolCallRequest where
  toolName : List Char
  args : List (List Char × List Char)
deriving DecidableEq

/-- Spec §3: `GuardVerdict = {allow, reason, stage}`. -/
structure GuardVerdict where
  allow : Bool
  reason : List Char
  stage : List Char
deriving DecidableEq

/-- The ways a guardrail stage can fail (spec §7 taxonomy). -/
inductive StageFailure where
  | deadlineExceeded : StageFailure
  | backendUnavailable : StageFailure
  | malformedVerdict : StageFailure
deriving DecidableEq

/-- What one guardrail stage produces: a verdict, or a stage error. -/
inductive StageOutcome where
  | verdict : Bool → List Char → StageOutcome
  | stageError : StageFailure → StageOutcome
deriving DecidableEq

/-- Whether a stage outcome is an error. -/
def StageOutcome.isError : StageOutcome → Bool
  | .verdict _ _ => false
  | .stageError _ => true

/-- The three validation stages of the pipeline, as oracles (spec §4.3;
the reasoning stage also reads the conversation context). -/
structure GuardStages where
  fastFilter : ToolCallRequest → StageOutcome
  guardCheck : ToolCallRequest → StageOutcome
  reasoningCheck : List Message → ToolCallRequest → StageOutcome

/-- Modelled from the spec: converting one stage outcome to a verdict;
per §4.3 and §7, a stage error is fail-closed, i.e. a deny verdict whose
reason references the failure. -/
def stageVerdict (stageName : List Char) (o : StageOutcome) : GuardVerdict :=
  match o with
  | .verdict a r => { allow := a, reason := r, stage := stageName }
  | .stageError _ =>
      { allow := false
      , reason := "stage failure (fail-closed)".data
      , stage := stageName }

/-- Modelled from the spec: the Guardrail Pipeline of §4.3, which is
absent from src.  `SAFE` short-circuits to an automatic allow with no
model call; `SENSITIVE` runs fast filter, guard check and reasoning
verification in order, short-circuiting on the first denial, errors
denying (fail-closed). -/
def runPipeline (stages : GuardStages) (ctx : List Message) (tier : RiskTier)
    (req : ToolCallRequest) : GuardVerdict :=
  match tier with
  | .safe =>
      { allow := true
      , reason := "SAFE tool auto-approved".data
      , stage := "auto".data }
  | .sensitive =>
      let v1 := stageVerdict "fast_filter".data (stages.fastFilter req)
      if v1.allow then
        let v2 := stageVerdict "guard_check".data (stages.guardCheck req)
        if v2.allow then
          stageVerdict "reasoning_verification".data (stages.reasoningCheck ctx req)
        else v2
      else v1

/-- What the planning call decided (spec §4.1: a typed result, final
answer or tool call). -/
inductive PlanStep where
  | finalAnswer : List Char → PlanStep
  | toolCall : ToolCallRequest → PlanStep

/-- Observable events of one conversation turn, in order. -/
inductive TurnEvent where
  | planningCall : TurnEvent
  | pipelineVerdict : ToolCallRequest → GuardVerdict → TurnEvent
  | toolInvoked : ToolCallRequest → TurnEvent
  | answered : List Char → TurnEvent

/-- graph.py lines 21-23: the `AgentState` reducer `add_messages`
appends new messages to the history instead of overwriting it. -/
def add_messages (old new : List Message) : List Message := old ++ new

/-- The controller environment: the planning oracle, the guardrail
stages, and the tool executor. -/
structure ControllerEnv where
  planner : List Message → PlanStep
  stages : GuardStages
  toolExec : ToolCallRequest → List Char

/-- The synthesized final answer when the round-trip cap is exceeded
(spec §4.4 step 5). -/
def unable_msg : List Char := "unable to complete".data

/-- Modelled from the spec: the Conversation Controller loop of §4.4,
whose body is truncated in graph.py (`agent_node` ends mid-function and
no routing/dispatch code exists).  Per §4.4: plan on the current history;
a final answer is appended and ends the turn; a tool call is submitted to
the pipeline; on allow the tool is executed and its result appended; on
deny the denial reason is appended; the loop repeats under a fuel bound
(the round-trip cap).  Returns the new history and the event trace. -/
def runLoop (env : ControllerEnv) :
    Nat → List Message → List Message × List TurnEvent
  | 0, msgs =>
      (add_messages msgs [{ role := .assistant, content := unable_msg }],
       [.answered unable_msg])
  | fuel + 1, msgs =>
      match env.planner msgs with
      | .finalAnswer t =>
          (add_messages msgs [{ role := .assistant, content := t }],
           [.planningCall, .answered t])
      | .toolCall req =>
          let v := runPipeline env.stages msgs (toolTier req.toolName) req
          if v.allow then
            let r := runLoop env fuel
              (add_messages msgs [{ role := .toolResult, content := env.toolExec req }])
            (r.1, .planningCall :: .pipelineVerdict req v :: .toolInvoked req :: r.2)
          else
            let r := runLoop env fuel
              (add_messages msgs [{ role := .toolResult, content := v.reason }])
            (r.1, .planningCall :: .pipelineVerdict req v :: r.2)

/-- Modelled from the spec: one turn of the Conversation Controller
(§4.4 `step`): append the incoming user message, then run the loop under
the round-trip cap. -/
def stepTurn (env : ControllerEnv) (cap : Nat) (st : List Message)
    (userMsg : List Char) : List Message × List TurnEvent :=
  runLoop env cap (add_messages st [{ role := .user, content := userMsg }])

/-- The trade-gating trace property: no tool invocation at position 0,
and a tool invocation occurs at a position exactly when the position
immediately before it holds an `allow` pipeline verdict for the same
request. -/
def ExecGuarded (evts : List TurnEvent) : Prop :=
  (∀ req, evts[0]? ≠ some (.toolInvoked req)) ∧
  ∀ i req, evts[i + 1]? = some (.toolInvoked req) ↔
    ∃ v, evts[i]? = some (.pipelineVerdict req v) ∧ v.allow = true

/-- A configuration with a key present, used for concrete evaluations. -/
def cfgEx : Config := configFromEnv (some "test-key".data) none

/-- The two-message history used to exhibit the dropped-history behavior
of `call_gemini_with_tools`. -/
def histEx : List Message :=
  [ { role := .user, content := "hello".data }
  , { role := .assistant, content := "hi".data } ]

/-- An attempt-indexed backend that fails on the first call and would
succeed on any retry. -/
def flakyBackend : Nat → GenRequest → Except BackendError (List Char) :=
  fun attempt _ => if attempt = 0 then .error .unavailable else .ok "recovered".data

/-- A concrete trade request. -/
def tradeReqEx : ToolCallRequest :=
  { toolName := "execute_trade".data, args := [("ticker".data, "NVDA".data)] }

/-- Guardrail stages whose guard check errors out (backend timeout). -/
def stagesErrEx : GuardStages :=
  { fastFilter := fun _ => .verdict true "in scope".data
  , guardCheck := fun _ => .stageError .deadlineExceeded
  , reasoningCheck := fun _ _ => .verdict true "justified".data }

/-- Guardrail stages that approve everything. -/
def stagesAllowEx : GuardStages :=
  { fastFilter := fun _ => .verdict true "in scope".data
  , guardCheck := fun _ => .verdict true "compliant".data
  , reasoningCheck := fun _ _ => .verdict true "justified".data }

/-- A controller environment that proposes one trade and then finishes. -/
def envEx : ControllerEnv :=
  { planner := fun msgs =>
      if msgs.length ≤ 1 then .toolCall tradeReqEx else .finalAnswer "done".data
  , stages := stagesAllowEx
  , toolExec := fun _ => "trade result".data }

/-- C5: `query_10K_report` is a total function of the corpus and the
query — for every input it returns one of three result strings, never an
exception — and on the empty corpus it returns the descriptive error
string rather than throwing. -/
theorem query_10K_report_total_never_fails :
    (∀ q : List Char, query_10K_report [] q = report_unavailable_msg) ∧
    ∀ corpus q : List Char,
      query_10K_report corpus q = report_unavailable_msg ∨
      (∃ snippet, query_10K_report corpus q = found_msg ++ snippet) ∨
      query_10K_report corpus q = no_match_msg := by
  constructor
  · intro q
    simp [query_10K_report]
  · intro corpus q
    by_cases hc : corpus = []
    · subst hc
      left
      simp [query_10K_report]
    · rcases h : pyFind (lowerStr corpus) (lowerStr q) with _ | mi
      · right; right
        simp [query_10K_report, hc, h]
      · right; left
        refine ⟨(corpus.drop (mi - 500)).take
          (min corpus.length (mi + 500) - (mi - 500)), ?_⟩
        simp [query_10K_report, hc, h]

/-- C9: `execute_trade` validates nothing: for every ticker, share count
(zero and negative included) and order type, it reports status `SUCCESS`
and echoes the inputs unchanged in `ticker_id`, `shares` and
`order_type`. -/
theorem execute_trade_no_validation_echoes (ticker : List Char) (shares : Int)
    (order_types : List Char) (now : Nat) :
    (execute_trade ticker shares order_types now).status = "SUCCESS".data ∧
    (execute_trade ticker shares order_types now).ticker_id = ticker ∧
    (execute_trade ticker shares order_types now).shares = shares ∧
    (execute_trade ticker shares order_types now).order_type = order_types :=
  ⟨rfl, rfl, rfl, rfl⟩

/-- C10: on a non-empty corpus, when the lowercased query occurs in the
lowercased corpus at first position `mi`, the result is the `Found`
message followed by the snippet `corpus[max(0,mi-500) : min(len,mi+500)]`
(at most 500 characters before and after the match position, at most 1000
in total); with no occurrence the result is exactly the no-match
message. -/
theorem query_10K_report_snippet_spec (corpus query : List Char)
    (hc : corpus ≠ []) :
    (∀ mi, pyFind (lowerStr corpus) (lowerStr query) = some mi →
      query_10K_report corpus query =
        found_msg ++
          (corpus.drop (mi - 500)).take (min corpus.length (mi + 500) - (mi - 500)) ∧
      ((corpus.drop (mi - 500)).take
          (min corpus.length (mi + 500) - (mi - 500))).length ≤ 1000) ∧
    (pyFind (lowerStr corpus) (lowerStr query) = none →
      query_10K_report corpus query = no_match_msg) := by
  constructor
  · intro mi h
    constructor
    · simp [query_10K_report, hc, h]
    · have h1 := List.length_take_le
        (min corpus.length (mi + 500) - (mi - 500)) (corpus.drop (mi - 500))
      have h2 : min corpus.length (mi + 500) ≤ mi + 500 := Nat.min_le_right _ _
      omega
  · intro h
    simp [query_10K_report, hc, h]

/-- Witness for C10 at a concrete corpus and query: the lowercased query
`grew` first occurs at index 8 of the lowercased corpus. -/
theorem query_10K_report_snippet_spec_witness :
    query_10K_report "Revenue grew rapidly".data "GREW".data =
      found_msg ++
        (("Revenue grew rapidly".data).drop (8 - 500)).take
          (min ("Revenue grew rapidly".data).length (8 + 500) - (8 - 500)) ∧
    ((("Revenue grew rapidly".data).drop (8 - 500)).take
        (min ("Revenue grew rapidly".data).length (8 + 500) - (8 - 500))).length ≤ 1000 :=
  (query_10K_report_snippet_spec "Revenue grew rapidly".data "GREW".data
    (by decide)).1 8 (by decide)

/-- C7: when the Gemini API key environment variable is absent at startup
(so `Config.GEMINI_API_KEY` defaults to the empty string), constructing
the module-level `gemini_client` raises `ValueError`: initialization
fails fast rather than proceeding. -/
theorem startup_fails_fast_without_key (cfg : Config)
    (h : cfg.GEMINI_API_KEY = []) :
    startupGeminiClient cfg = .error .valueError ∧ configValidate cfg = false := by
  constructor
  · simp [startupGeminiClient, geminiClientInit, h]
  · simp [configValidate, h]

/-- Witness for C7: the configuration built from an environment with no
`GEMINI_API_KEY` variable. -/
theorem startup_fails_fast_without_key_witness :
    startupGeminiClient (configFromEnv none none) = .error .valueError ∧
    configValidate (configFromEnv none none) = false :=
  startup_fails_fast_without_key (configFromEnv none none) rfl

/-- C6 (code bug): `GeminiClient.generate` performs no retry at all — on
a backend that fails its first call and would succeed on any later
attempt, the call fails upward immediately, even though the configured
retry budget `Config.MAX_RETRIES` is 3. -/
theorem geminiGenerate_no_retry :
    geminiGenerate cfgEx none flakyBackend "hello".data = .error .unavailable ∧
    flakyBackend 1
      { modelName := cfgEx.MODEL_POWERFUL, contents := "hello".data } =
        .ok "recovered".data ∧
    cfgEx.MAX_RETRIES = 3 :=
  ⟨rfl, rfl, rfl⟩

/-- C3 (counterexample): on a two-message history the planning request
submitted by `call_gemini_with_tools` carries only the last message's
content `hi`; the content `hello` of the earlier accumulated message does
not occur in it, so the planning call does not contain the full message
history. -/
theorem call_gemini_with_tools_drops_history :
    histEx.map Message.content = ["hello".data, "hi".data] ∧
    (call_gemini_with_tools cfgEx histEx).map PlanningRequest.contents =
      some "hi".data ∧
    occursIn "hello".data "hi".data = false := by
  decide

/-- C3 (amended): the planning call submits the content of only the most
recent message of the history, together with the static tool schema set
`tools_config` (and the configured powerful model). -/
theorem call_gemini_with_tools_sends_last_message (cfg : Config)
    (messages : List Message) (lastMsg : Message)
    (h : messages.getLast? = some lastMsg) :
    call_gemini_with_tools cfg messages =
      some { modelName := cfg.MODEL_POWERFUL
           , contents := lastMsg.content
           , tools := tools_config } := by
  simp [call_gemini_with_tools, h]

/-- Witness for the amended C3 at the concrete two-message history. -/
theorem call_gemini_with_tools_sends_last_message_witness :
    call_gemini_with_tools cfgEx histEx =
      some { modelName := cfgEx.MODEL_POWERFUL
           , contents := "hi".data
           , tools := tools_config } :=
  call_gemini_with_tools_sends_last_message cfgEx histEx
    { role := .assistant, content := "hi".data } (by decide)

/-- C2: for a `SENSITIVE` request, if any guardrail stage errors
(deadline exceeded, backend unavailable, or malformed verdict), the
pipeline's overall verdict has `allow = false`; it never fails open. -/
theorem pipeline_fail_closed (stages : GuardStages) (ctx : List Message)
    (req : ToolCallRequest)
    (h : (stages.fastFilter req).isError = true ∨
         (stages.guardCheck req).isError = true ∨
         (stages.reasoningCheck ctx req).isError = true) :
    (runPipeline stages ctx .sensitive req).allow = false := by
  cases h1 : stages.fastFilter req with
  | stageError e1 => simp [runPipeline, stageVerdict, h1]
  | verdict a1 r1 =>
    cases a1 with
    | false => simp [runPipeline, stageVerdict, h1]
    | true =>
      cases h2 : stages.guardCheck req with
      | stageError e2 => simp [runPipeline, stageVerdict, h1, h2]
      | verdict a2 r2 =>
        cases a2 with
        | false => simp [runPipeline, stageVerdict, h1, h2]
        | true =>
          cases h3 : stages.reasoningCheck ctx req with
          | stageError e3 => simp [runPipeline, stageVerdict, h1, h2, h3]
          | verdict a3 r3 =>
            exfalso
            rcases h with h | h | h <;>
              simp [h1, h2, h3, StageOutcome.isError] at h

/-- Witness for C2: a trade request whose guard-check stage times out is
denied. -/
theorem pipeline_fail_closed_witness :
    (runPipeline stagesErrEx [] .sensitive tradeReqEx).allow = false :=
  pipeline_fail_closed stagesErrEx [] tradeReqEx (Or.inr (Or.inl rfl))

theorem dropWhile_eq_self_of_head (w : Char → Bool) (l : List Char)
    (h : ∀ c, l.head? = some c → w c = false) : l.dropWhile w = l := by
  cases l with
  | nil => rfl
  | cons a t => simp [List.dropWhile_cons, h a rfl]

theorem pyStrip_eq_self (s : List Char)
    (h1 : ∀ c, s.head? = some c → isPyWS c = false)
    (h2 : ∀ c, s.getLast? = some c → isPyWS c = false) :
    pyStrip s = s := by
  unfold pyStrip
  rw [dropWhile_eq_self_of_head isPyWS s h1]
  rw [dropWhile_eq_self_of_head isPyWS s.reverse
    (fun c hc => h2 c (by rwa [List.head?_reverse] at hc))]
  exact s.reverse_reverse

theorem pyStrip_cons_ws (c : Char) (s : List Char) (hc : isPyWS c = true) :
    pyStrip (c :: s) = pyStrip s := by
  simp [pyStrip, List.dropWhile_cons, hc]

theorem pyStrip_append_ws (s : List Char) (c : Char) (hc : isPyWS c = true) :
    pyStrip (s ++ [c]) = pyStrip s := by
  unfold pyStrip
  rw [List.dropWhile_append]
  cases h : s.dropWhile isPyWS with
  | nil => simp [h, List.dropWhile_cons, hc]
  | cons e t => simp [h, hc, List.reverse_append, List.dropWhile_cons]

theorem hasSuffixL_fence3 (y : List Char) : hasSuffixL fence3 (y ++ fence3) = true := by
  unfold hasSuffixL
  rw [List.reverse_append]
  rfl

theorem stripTrail_append_fence3 (y : List Char) : stripTrail (y ++ fence3) = y := by
  unfold stripTrail
  rw [hasSuffixL_fence3, if_pos rfl]
  rw [show (y ++ fence3).length - 3 = y.length from by simp [fence3]]
  exact List.take_left y fence3

theorem stripJsonFences_wrapJsonFence (d : List Char) :
    stripJsonFences (wrapJsonFence d) = '\n' :: d ++ ['\n'] := by
  have hw : wrapJsonFence d = fence3json ++ (('\n' :: d ++ ['\n']) ++ fence3) := by
    simp [wrapJsonFence]
  have hhead : (fence3json ++ (('\n' :: d ++ ['\n']) ++ fence3)).head? = some bq := rfl
  have hlast : (fence3json ++ (('\n' :: d ++ ['\n']) ++ fence3)).getLast? = some bq := by
    rw [List.getLast?_append, List.getLast?_append]
    rfl
  have hstrip : pyStrip (fence3json ++ (('\n' :: d ++ ['\n']) ++ fence3)) =
      fence3json ++ (('\n' :: d ++ ['\n']) ++ fence3) := by
    apply pyStrip_eq_self
    · intro c hc
      rw [hhead] at hc
      obtain rfl : bq = c := Option.some.inj hc
      decide
    · intro c hc
      rw [hlast] at hc
      obtain rfl : bq = c := Option.some.inj hc
      decide
  rw [hw]
  unfold stripJsonFences
  rw [hstrip]
  rw [show stripTag (fence3json ++ (('\n' :: d ++ ['\n']) ++ fence3)) =
    ('\n' :: d ++ ['\n']) ++ fence3 from rfl]
  rw [show stripLead (('\n' :: d ++ ['\n']) ++ fence3) =
    ('\n' :: d ++ ['\n']) ++ fence3 from rfl]
  exact stripTrail_append_fence3 _

theorem stripJsonFences_wrapBareFence (d : List Char) :
    stripJsonFences (wrapBareFence d) = '\n' :: d ++ ['\n'] := by
  have hw : wrapBareFence d = fence3 ++ (('\n' :: d ++ ['\n']) ++ fence3) := by
    simp [wrapBareFence]
  have hhead : (fence3 ++ (('\n' :: d ++ ['\n']) ++ fence3)).head? = some bq := rfl
  have hlast : (fence3 ++ (('\n' :: d ++ ['\n']) ++ fence3)).getLast? = some bq := by
    rw [List.getLast?_append, List.getLast?_append]
    rfl
  have hstrip : pyStrip (fence3 ++ (('\n' :: d ++ ['\n']) ++ fence3)) =
      fence3 ++ (('\n' :: d ++ ['\n']) ++ fence3) := by
    apply pyStrip_eq_self
    · intro c hc
      rw [hhead] at hc
      obtain rfl : bq = c := Option.some.inj hc
      decide
    · intro c hc
      rw [hlast] at hc
      obtain rfl : bq = c := Option.some.inj hc
      decide
  rw [hw]
  unfold stripJsonFences
  rw [hstrip]
  rw [show stripTag (fence3 ++ (('\n' :: d ++ ['\n']) ++ fence3)) =
    fence3 ++ (('\n' :: d ++ ['\n']) ++ fence3) from rfl]
  rw [show stripLead (fence3 ++ (('\n' :: d ++ ['\n']) ++ fence3)) =
    ('\n' :: d ++ ['\n']) ++ fence3 from rfl]
  exact stripTrail_append_fence3 _


/-- C4 (counterexample): the client only strips the `json` language tag;
with any other tag (here `yaml`) the fenced document `1` is not
recovered: parsing hard-fails (`none`) instead of yielding the same
parsed object `jnum 1` that the unwrapped document yields. -/
theorem generate_json_tagged_fence_not_stripped :
    generate_json_post (wrapTaggedFence "yaml".data "1".data) = none ∧
    jsonLoads "1".data = some (.jnum 1) ∧
    generate_json_post "1".data = some (.jnum 1) :=
  ⟨rfl, rfl, rfl⟩

/-- C4 (amended): for every document `d` (normalized: no surrounding
whitespace), wrapping in a fence whose tag is `json` or absent parses
identically to `json.loads` on the unwrapped document; and any response
that is not valid JSON after fence stripping is a hard parse failure,
never silently swallowed. -/
theorem generate_json_fence_round_trip (d : List Char) (hd : pyStrip d = d) :
    generate_json_post (wrapJsonFence d) = jsonLoads d ∧
    generate_json_post (wrapBareFence d) = jsonLoads d ∧
    ∀ s, jsonLoads (pyStrip (stripJsonFences s)) = none →
      generate_json_post s = none := by
  refine ⟨?_, ?_, fun s h => h⟩
  · unfold generate_json_post
    rw [stripJsonFences_wrapJsonFence]
    rw [pyStrip_append_ws ('\n' :: d) '\n' rfl]
    rw [pyStrip_cons_ws '\n' d rfl, hd]
  · unfold generate_json_post
    rw [stripJsonFences_wrapBareFence]
    rw [pyStrip_append_ws ('\n' :: d) '\n' rfl]
    rw [pyStrip_cons_ws '\n' d rfl, hd]

/-- Witness for the amended C4 at the concrete document `[1, 2]`. -/
theorem generate_json_fence_round_trip_witness :
    pyStrip "[1, 2]".data = "[1, 2]".data ∧
    generate_json_post (wrapJsonFence "[1, 2]".data) = jsonLoads "[1, 2]".data ∧
    generate_json_post (wrapBareFence "[1, 2]".data) = jsonLoads "[1, 2]".data :=
  ⟨rfl, (generate_json_fence_round_trip "[1, 2]".data rfl).1,
    (generate_json_fence_round_trip "[1, 2]".data rfl).2.1⟩

/-- The empty trace satisfies none of the shapes; base chunk produced
when the round-trip cap is exhausted. -/
theorem execGuarded_unable : ExecGuarded [.answered unable_msg] := by
  constructor
  · intro req h
    simp at h
  · intro i req
    constructor
    · intro h
      cases i <;> simp at h
    · rintro ⟨v, hv, -⟩
      cases i <;> simp at hv

/-- Trace chunk of a turn ending in a final answer. -/
theorem execGuarded_final (t : List Char) :
    ExecGuarded [.planningCall, .answered t] := by
  constructor
  · intro req h
    simp at h
  · intro i req
    constructor
    · intro h
      match i with
      | 0 => simp at h
      | n + 1 => cases n <;> simp at h
    · rintro ⟨v, hv, -⟩
      match i with
      | 0 => simp at hv
      | n + 1 => cases n <;> simp at hv

/-- Prepending a planning call and a denial verdict preserves the
trade-gating trace property. -/
theorem execGuarded_deny (req : ToolCallRequest) (v : GuardVerdict)
    (rest : List TurnEvent) (hv : v.allow = false) (hrest : ExecGuarded rest) :
    ExecGuarded (.planningCall :: .pipelineVerdict req v :: rest) := by
  obtain ⟨hhead, hiff⟩ := hrest
  constructor
  · intro r h
    simp at h
  · intro i r
    match i with
    | 0 =>
      constructor
      · intro h; simp at h
      · rintro ⟨v', hv', -⟩
        simp at hv'
    | 1 =>
      constructor
      · intro h
        simp only [List.getElem?_cons_succ] at h
        exact absurd h (hhead r)
      · rintro ⟨v', hv', hallow⟩
        simp only [List.getElem?_cons_succ, List.getElem?_cons_zero,
          Option.some.injEq, TurnEvent.pipelineVerdict.injEq] at hv'
        obtain ⟨-, rfl⟩ := hv'
        rw [hv] at hallow
        exact absurd hallow (by simp)
    | n + 2 =>
      simp only [List.getElem?_cons_succ]
      exact hiff n r

/-- Prepending a planning call, an allow verdict and the matching tool
invocation preserves the trade-gating trace property. -/
theorem execGuarded_allow (req : ToolCallRequest) (v : GuardVerdict)
    (rest : List TurnEvent) (hv : v.allow = true) (hrest : ExecGuarded rest) :
    ExecGuarded (.planningCall :: .pipelineVerdict req v :: .toolInvoked req :: rest) := by
  obtain ⟨hhead, hiff⟩ := hrest
  constructor
  · intro r h
    simp at h
  · intro i r
    match i with
    | 0 =>
      constructor
      · intro h; simp at h
      · rintro ⟨v', hv', -⟩
        simp at hv'
    | 1 =>
      constructor
      · intro h
        simp only [List.getElem?_cons_succ, List.getElem?_cons_zero,
          Option.some.injEq, TurnEvent.toolInvoked.injEq] at h
        subst h
        exact ⟨v, rfl, hv⟩
      · rintro ⟨v', hv', -⟩
        simp only [List.getElem?_cons_succ, List.getElem?_cons_zero,
          Option.some.injEq, TurnEvent.pipelineVerdict.injEq] at hv'
        obtain ⟨rfl, -⟩ := hv'
        simp [List.getElem?_cons_succ, List.getElem?_cons_zero]
    | 2 =>
      constructor
      · intro h
        simp only [List.getElem?_cons_succ] at h
        exact absurd h (hhead r)
      · rintro ⟨v', hv', -⟩
        simp only [List.getElem?_cons_succ, List.getElem?_cons_zero] at hv'
        simp at hv'
    | n + 3 =>
      simp only [List.getElem?_cons_succ]
      exact hiff n r

/-- Every trace the controller loop produces satisfies the trade-gating
property. -/
theorem runLoop_execGuarded (env : ControllerEnv) :
    ∀ fuel msgs, ExecGuarded (runLoop env fuel msgs).2 := by
  intro fuel
  induction fuel with
  | zero =>
    intro msgs
    exact execGuarded_unable
  | succ n ih =>
    intro msgs
    unfold runLoop
    cases hplan : env.planner msgs with
    | finalAnswer t =>
      exact execGuarded_final t
    | toolCall req =>
      by_cases hallow : (runPipeline env.stages msgs (toolTier req.toolName) req).allow = true
      · simp only [hallow, if_true]
        exact execGuarded_allow req _ _ hallow (ih _)
      · simp only [Bool.not_eq_true] at hallow
        simp only [hallow, Bool.false_eq_true, if_false]
        exact execGuarded_deny req _ _ hallow (ih _)

/-- C1: in every turn trace, the trade tool handler is invoked at a
position if and only if the position immediately before it carries an
`allow = true` pipeline verdict for that exact request; it is never
invoked first (i.e. never without a preceding evaluated verdict, and
never after a denial). -/
theorem trade_tool_gated (env : ControllerEnv) (cap : Nat) (st : List Message)
    (userMsg : List Char) (i : Nat) (req : ToolCallRequest)
    (_hreq : req.toolName = "execute_trade".data) :
    ((stepTurn env cap st userMsg).2[0]? ≠ some (.toolInvoked req)) ∧
    ((stepTurn env cap st userMsg).2[i + 1]? = some (.toolInvoked req) ↔
      ∃ v, (stepTurn env cap st userMsg).2[i]? = some (.pipelineVerdict req v) ∧
        v.allow = true) := by
  have h := runLoop_execGuarded env cap
    (add_messages st [{ role := .user, content := userMsg }])
  exact ⟨h.1 req, h.2 i req⟩

/-- Witness for C1: a concrete turn in which the trade tool is invoked at
position 2, immediately after its allow verdict at position 1. -/
theorem trade_tool_gated_witness :
    ((stepTurn envEx 3 [] "buy".data).2[0]? ≠ some (.toolInvoked tradeReqEx)) ∧
    ((stepTurn envEx 3 [] "buy".data).2[2]? = some (.toolInvoked tradeReqEx) ↔
      ∃ v, (stepTurn envEx 3 [] "buy".data).2[1]? =
        some (.pipelineVerdict tradeReqEx v) ∧ v.allow = true) :=
  trade_tool_gated envEx 3 [] "buy".data 1 tradeReqEx rfl

/-- C8: every Conversation Controller operation only appends to the
message sequence: the reducer `add_messages` keeps the old history as a
prefix, and so do the controller loop and a whole turn — the history
before is always a prefix of the history after (never removed, never
reordered, length non-decreasing). -/
theorem conversation_messages_append_only (env : ControllerEnv) :
    (∀ old new : List Message, old <+: add_messages old new) ∧
    (∀ fuel msgs, msgs <+: (runLoop env fuel msgs).1) ∧
    (∀ cap st userMsg, st <+: (stepTurn env cap st userMsg).1) := by
  have hadd : ∀ old new : List Message, old <+: add_messages old new :=
    fun old new => List.prefix_append old new
  have hloop : ∀ fuel msgs, msgs <+: (runLoop env fuel msgs).1 := by
    intro fuel
    induction fuel with
    | zero =>
      intro msgs
      exact hadd _ _
    | succ n ih =>
      intro msgs
      unfold runLoop
      cases hplan : env.planner msgs with
      | finalAnswer t => exact hadd _ _
      | toolCall req =>
        by_cases hallow : (runPipeline env.stages msgs (toolTier req.toolName) req).allow = true
        · simp only [hallow, if_true]
          exact (hadd _ _).trans (ih _)
        · simp only [Bool.not_eq_true] at hallow
          simp only [hallow, Bool.false_eq_true, if_false]
          exact (hadd _ _).trans (ih _)
  exact ⟨hadd, hloop, fun cap st userMsg => (hadd _ _).trans (hloop _ _)⟩
